import Mathlib

/-!
Verification development for the `enzian_lib` repository (LiveKit utilities).

The Python sources embedded here are:
  * `enzian_lib/livekit/messaging.py` — the `Message` dataclass with
    `__post_init__`, `to_dict` and `to_json`;
  * `enzian_lib/livekit/livekit_utils.py` — `create_participant_token` and
    `play_audio_file`.

External effects are made explicit: the uuid generator and the clock used by
`Message.__post_init__` become an environment record `MsgEnv`; the process
environment consulted by `create_participant_token` becomes `LkEnv`; the
LiveKit audio source that `play_audio_file` drives becomes an `AudioSink`
behaviour record, and the run of `play_audio_file` returns a trace of the
calls it made on the sink.  Python `int` arithmetic on sizes is embedded as
`Nat` (all the quantities involved — byte counts, frame counts — are
non-negative in the source); `time.time()` is abstracted as an integer
timestamp supplied by the environment.
-/

/-- JSON values as produced by Python's `json.dumps` on the dictionaries this
library builds: `null`, strings, integers and objects with ordered keys.
(Python dicts preserve insertion order, so an object is an ordered
association list.) -/
inductive JValue where
  | null : JValue
  | str : String → JValue
  | num : Int → JValue
  | obj : List (String × JValue) → JValue
deriving Repr

/-- Escaping of one character inside a JSON string literal, as `json.dumps`
does for the characters that actually occur in this library's data (no
control characters). -/
def escChar (c : Char) : List Char :=
  if c = '"' then ['\\', '"']
  else if c = '\\' then ['\\', '\\']
  else [c]

/-- Body of a JSON string literal. -/
def escString (s : String) : String :=
  String.mk (s.data.flatMap escChar)

/-- A quoted JSON string literal. -/
def quoteJson (s : String) : String :=
  "\"" ++ escString s ++ "\""

mutual

/-- Rendering of a `JValue` exactly as Python's `json.dumps` with default
separators renders the corresponding value (item separator `", "`,
key separator `": "`). -/
def renderJson : JValue → String
  | .null => "null"
  | .str s => quoteJson s
  | .num n => toString n
  | .obj fs => "\x7b" ++ renderFields fs ++ "\x7d"

/-- Rendering of the fields of a JSON object, joined by `", "`. -/
def renderFields : List (String × JValue) → String
  | [] => ""
  | [kv] => quoteJson kv.1 ++ ": " ++ renderJson kv.2
  | kv :: rest => quoteJson kv.1 ++ ": " ++ renderJson kv.2 ++ ", " ++ renderFields rest

end

/-- Consume leading spaces (the only whitespace `json.dumps` emits with the
default separators). -/
def skipWs : List Char → List Char
  | ' ' :: rest => skipWs rest
  | cs => cs

/-- Parse the body of a JSON string literal up to the closing quote,
understanding the two escapes `escChar` produces.  Returns the decoded
characters and the input after the closing quote. -/
def parseStrBody : Nat → List Char → Option (List Char × List Char)
  | 0, _ => none
  | _, '"' :: rest => some ([], rest)
  | fuel + 1, '\\' :: c :: rest =>
    match parseStrBody fuel rest with
    | some (s, rem) => some (c :: s, rem)
    | none => none
  | fuel + 1, c :: rest =>
    match parseStrBody fuel rest with
    | some (s, rem) => some (c :: s, rem)
    | none => none
  | _, [] => none

/-- Parse a run of decimal digits into a natural number accumulator. -/
def parseDigits : Nat → List Char → Nat → Option (Nat × List Char)
  | 0, _, _ => none
  | fuel + 1, c :: rest, acc =>
    if c.isDigit then
      match parseDigits fuel rest (acc * 10 + (c.toNat - 48)) with
      | some r => some r
      | none => some (acc * 10 + (c.toNat - 48), rest)
    else some (acc, c :: rest)
  | _ + 1, [], acc => some (acc, [])

mutual

/-- A recursive-descent parser for the JSON fragment `renderJson` emits
(null, integers, strings, objects).  `fuel` bounds the recursion depth. -/
def parseJson : Nat → List Char → Option (JValue × List Char)
  | 0, _ => none
  | fuel + 1, input =>
    match skipWs input with
    | 'n' :: 'u' :: 'l' :: 'l' :: rest => some (.null, rest)
    | '"' :: rest =>
      match parseStrBody (fuel + 1) rest with
      | some (s, rem) => some (.str (String.mk s), rem)
      | none => none
    | '-' :: rest =>
      match parseDigits (fuel + 1) rest 0 with
      | some (n, rem) => if rest.head?.any Char.isDigit then some (.num (-(n : Int)), rem) else none
      | none => none
    | '\x7b' :: rest =>
      (match skipWs rest with
       | '\x7d' :: rem => some (.obj [], rem)
       | _ =>
         match parseFields fuel (skipWs rest) with
         | some (fs, rem) => some (.obj fs, rem)
         | none => none)
    | c :: rest =>
      if c.isDigit then
        match parseDigits (fuel + 1) (c :: rest) 0 with
        | some (n, rem) => some (.num (n : Int), rem)
        | none => none
      else none
    | [] => none

/-- Parse one or more `"key": value` fields followed by `,` or the closing
brace. -/
def parseFields : Nat → List Char → Option (List (String × JValue) × List Char)
  | 0, _ => none
  | fuel + 1, input =>
    match input with
    | '"' :: rest =>
      match parseStrBody (fuel + 1) rest with
      | some (k, rem) =>
        (match skipWs rem with
         | ':' :: rem2 =>
           match parseJson fuel (skipWs rem2) with
           | some (v, rem3) =>
             (match skipWs rem3 with
              | ',' :: rem4 =>
                (match parseFields fuel (skipWs rem4) with
                 | some (fs, rem5) => some ((String.mk k, v) :: fs, rem5)
                 | none => none)
              | '\x7d' :: rem4 => some ([(String.mk k, v)], rem4)
              | _ => none)
           | none => none
         | _ => none)
      | none => none
    | _ => none

end

/-! ## `messaging.py` — the `Message` dataclass -/

/-- The external inputs consumed by `Message.__post_init__`: the value
`str(uuid.uuid4())` would produce and the value `time.time()` would produce
(the timestamp abstracted as an integer). -/
structure MsgEnv where
  freshId : String
  now : Int
deriving Repr, DecidableEq

/-- The `Message` dataclass after `__post_init__` has run: `id` and
`timestamp` are always populated (the dataclass declares them `Optional`,
but `__post_init__` fills them in when they are `None`). -/
structure Message where
  event : String
  data : Option (List (String × JValue))
  source : String
  id : String
  timestamp : Int
deriving Repr

/-- Construction of a `Message`: the dataclass `__init__` followed by
`__post_init__`.  `__post_init__` generates `id` from `uuid.uuid4()` only
when the caller passed `None`, and `timestamp` from `time.time()` only when
the caller passed `None`; it performs no validation of `event`.  Python
defaults (`data=None`, `source='agent'`, `id=None`, `timestamp=None`) are
passed explicitly here. -/
def Message.construct (event : String) (data : Option (List (String × JValue)))
    (source : String) (id0 : Option String) (ts0 : Option Int) (env : MsgEnv) : Message :=
  { event := event
    data := data
    source := source
    id := id0.getD env.freshId
    timestamp := ts0.getD env.now }

/-- `Message.to_dict`: `dataclasses.asdict(self)` — the fields in declaration
order, as JSON-ready values (`None` becomes JSON null). -/
def Message.to_dict (m : Message) : List (String × JValue) :=
  [("event", .str m.event),
   ("data", match m.data with | none => .null | some o => .obj o),
   ("source", .str m.source),
   ("id", .str m.id),
   ("timestamp", .num m.timestamp)]

/-- `Message.to_json`: `json.dumps(self.to_dict())`. -/
def Message.to_json (m : Message) : String :=
  renderJson (.obj m.to_dict)

/-! ## `livekit_utils.py` — `create_participant_token` -/

/-- The process environment variables `create_participant_token` may consult:
`os.environ.get("LIVEKIT_API_KEY")` and `os.environ.get("LIVEKIT_API_SECRET")`
(`none` = unset). -/
structure LkEnv where
  apiKeyVar : Option String
  apiSecretVar : Option String
deriving Repr, DecidableEq

/-- The inputs the external `AccessToken(...).with_grants(...).with_identity(...)
.to_jwt()` call receives; the JWT itself is opaque to this library, so the
model records exactly what was passed to it. -/
structure Jwt where
  apiKey : String
  apiSecret : String
  room : String
  identity : String
deriving Repr, DecidableEq

/-- Python truthiness test `not x` on an `Optional[str]`: falsy iff `None` or
the empty string. -/
def falsyOptStr : Option String → Bool
  | none => true
  | some s => s = ""

/-- `create_participant_token(room_name, identity, api_key, api_secret)`:
each credential argument falls back to the environment variable only when it
is `None` (`x if x is not None else os.environ.get(...)`); then
`if not api_key or not api_secret: raise ValueError(...)` rejects any falsy
resolved value; otherwise the JWT is built from the resolved credentials. -/
def create_participant_token (room_name identity : String)
    (api_key api_secret : Option String) (env : LkEnv) : Except String Jwt :=
  let key := match api_key with
    | some k => some k
    | none => env.apiKeyVar
  let secret := match api_secret with
    | some s => some s
    | none => env.apiSecretVar
  if falsyOptStr key || falsyOptStr secret then
    .error "LiveKit API key and secret must be provided via arguments or environment variables LIVEKIT_API_KEY/LIVEKIT_API_SECRET"
  else
    .ok { apiKey := key.getD "", apiSecret := secret.getD "", room := room_name, identity := identity }

/-! ## `livekit_utils.py` — `play_audio_file`

The model of the wave file fixes a header consistent with the data chunk
(as the `wave` module guarantees for well-formed files): `nframes` is what
`getnframes()` reports, and `readframes(k)` starting at frame position `pos`
yields `min k (nframes - pos)` sample-frames of `channels * sampwidth` bytes
each.  A 16-bit PCM file has `sampwidth = 2`. -/

/-- Header and geometry of the opened `.wav` file. -/
structure WavFile where
  channels : Nat
  sampleRate : Nat
  nframes : Nat
  sampwidth : Nat
deriving Repr, DecidableEq

/-- Behaviour of the `rtc.AudioSource` the adapter drives: for each loop
iteration index, whether `capture_frame` raises (and the exception text), and
whether `wait_for_playout` / `aclose` raise. -/
structure AudioSink where
  captureErr : Nat → Option String
  playoutErr : Option String
  closeErr : Option String

/-- Trace of one run of `play_audio_file`: the `samples_per_channel` of every
frame handed to `capture_frame` in order, whether `wait_for_playout` and
`aclose` were invoked, the messages passed to `logger.error`, and the
exception (if any) that propagated to the caller. -/
structure PlayResult where
  batches : List Nat
  playoutCalled : Bool
  closeCalled : Bool
  logged : List String
  err : Option String
deriving Repr, DecidableEq

/-- The body of `for _ in range(0, data_size, num_samples)` in
`play_audio_file`, iterated at most `fuel` times (`fuel` is the length of the
`range`, fixed up front by Python).  Arguments: current iteration index `i`,
current frame position `pos`, accumulated batches (reversed).  Returns the
batches handed to `capture_frame` and the exception, if one escaped the loop:
 * `frames = wav_file.readframes(num_samples)`; `if not frames: break`;
 * `num_frames = len(frames) // 2` — `np.frombuffer(frames, np.int16)`
   raises when the byte count is odd;
 * `samples_per_channel = num_frames // channels`; `np.copyto` raises unless
   the source buffer broadcasts onto the frame buffer of
   `samples_per_channel * channels` samples (equal length, or length one);
 * `await source.capture_frame(frame)` may raise, aborting the loop. -/
def playLoop (f : WavFile) (s : AudioSink) (ns : Nat) :
    Nat → Nat → Nat → List Nat → List Nat × Option String
  | _, _, 0, acc => (acc.reverse, none)
  | i, pos, fuel + 1, acc =>
    let framesRead := min ns (f.nframes - pos)
    let nbytes := framesRead * f.channels * f.sampwidth
    if nbytes = 0 then (acc.reverse, none)
    else if nbytes % 2 ≠ 0 then
      (acc.reverse, some "buffer size must be a multiple of element size")
    else
      let numFrames := nbytes / 2
      let spc := numFrames / f.channels
      if numFrames ≠ spc * f.channels ∧ numFrames ≠ 1 then
        (acc.reverse, some "could not broadcast input array")
      else
        match s.captureErr i with
        | some e => ((spc :: acc).reverse, some e)
        | none => playLoop f s ns (i + 1) (pos + framesRead) fuel (spc :: acc)

/-- `play_audio_file(room, audio_file_path)` acting on the opened wave file
`f` through the sink `s`:
 * `num_samples = sample_rate * 1`; `range(0, data_size, num_samples)` raises
   `ValueError` when the step is zero, otherwise has
   `⌈data_size / num_samples⌉` iterations;
 * the loop body is `playLoop`; an exception escaping the loop propagates to
   the caller at once — the `try`-wrapped `wait_for_playout` and `aclose`
   calls after the loop are NOT executed in that case;
 * on normal loop exit, `wait_for_playout` then `aclose` are each invoked in
   their own `try`/`except` which logs the error and continues. -/
def play_audio_file (f : WavFile) (s : AudioSink) : PlayResult :=
  let ns := f.sampleRate * 1
  if ns = 0 then
    { batches := [], playoutCalled := false, closeCalled := false,
      logged := [], err := some "range() arg 3 must not be zero" }
  else
    let iters := (f.nframes + ns - 1) / ns
    match playLoop f s ns 0 0 iters [] with
    | (bs, some e) =>
      { batches := bs, playoutCalled := false, closeCalled := false,
        logged := [], err := some e }
    | (bs, none) =>
      let log1 := match s.playoutErr with
        | some pe => ["Error waiting for playout: " ++ pe]
        | none => []
      let log2 := match s.closeErr with
        | some ce => ["Error closing source: " ++ ce]
        | none => []
      { batches := bs, playoutCalled := true, closeCalled := true,
        logged := log1 ++ log2, err := none }

/-! ## Helper lemmas about the frame loop -/

/-- The sample-frame counts of the successive `readframes(ns)` calls on a
file with `rem` frames remaining, over at most `fuel` reads. -/
def chunkSizes (ns : Nat) : Nat → Nat → List Nat
  | 0, _ => []
  | fuel + 1, rem =>
    if rem = 0 then [] else min ns rem :: chunkSizes ns fuel (rem - min ns rem)

theorem chunkSizes_sum (ns : Nat) :
    ∀ fuel rem, (chunkSizes ns fuel rem).sum = min rem (fuel * ns) := by
  intro fuel
  induction fuel with
  | zero => intro rem; simp [chunkSizes]
  | succ fuel ih =>
    intro rem
    by_cases h : rem = 0
    · simp [chunkSizes, h]
    · have hmul : (fuel + 1) * ns = fuel * ns + ns := by ring
      simp only [chunkSizes, h, if_false, List.sum_cons, ih]
      omega

theorem chunkSizes_mem (ns : Nat) (hns : 0 < ns) :
    ∀ fuel rem, ∀ x ∈ chunkSizes ns fuel rem, 0 < x ∧ x ≤ ns := by
  intro fuel
  induction fuel with
  | zero => intro rem x hx; simp [chunkSizes] at hx
  | succ fuel ih =>
    intro rem x hx
    by_cases h : rem = 0
    · simp [chunkSizes, h] at hx
    · simp only [chunkSizes, h, if_false, List.mem_cons] at hx
      rcases hx with rfl | hx
      · omega
      · exact ih _ x hx

theorem chunkSizes_ne_nil (ns fuel rem : Nat)
    (h : chunkSizes ns fuel rem ≠ []) : 0 < fuel ∧ 0 < rem := by
  cases fuel with
  | zero => simp [chunkSizes] at h
  | succ fuel =>
    by_cases hr : rem = 0
    · simp [chunkSizes, hr] at h
    · exact ⟨Nat.succ_pos _, Nat.pos_of_ne_zero hr⟩

theorem chunkSizes_dropLast (ns : Nat) :
    ∀ fuel rem, ∀ x ∈ (chunkSizes ns fuel rem).dropLast, x = ns := by
  intro fuel
  induction fuel with
  | zero => intro rem x hx; simp [chunkSizes] at hx
  | succ fuel ih =>
    intro rem x hx
    by_cases h : rem = 0
    · simp [chunkSizes, h] at hx
    · simp only [chunkSizes, h, if_false] at hx
      rcases hrest : chunkSizes ns fuel (rem - min ns rem) with _ | ⟨y, ys⟩
      · simp [hrest] at hx
      · rw [hrest, List.dropLast_cons₂, List.mem_cons] at hx
        have hne : chunkSizes ns fuel (rem - min ns rem) ≠ [] := by simp [hrest]
        obtain ⟨hfl, hrm⟩ := chunkSizes_ne_nil ns fuel (rem - min ns rem) hne
        rcases hx with rfl | hx
        · omega
        · rw [← hrest] at hx
          exact ih _ x hx

theorem playLoop_noFail (f : WavFile) (s : AudioSink) (ns : Nat)
    (hc : 0 < f.channels) (hw : f.sampwidth = 2) (hns : 0 < ns)
    (hcap : ∀ j, s.captureErr j = none) :
    ∀ fuel i pos acc, playLoop f s ns i pos fuel acc =
      (acc.reverse ++ chunkSizes ns fuel (f.nframes - pos), none) := by
  intro fuel
  induction fuel with
  | zero => intro i pos acc; simp [playLoop, chunkSizes]
  | succ fuel ih =>
    intro i pos acc
    by_cases hrem : f.nframes - pos = 0
    · simp [playLoop, chunkSizes, hrem, hw]
    · have hfr : 0 < min ns (f.nframes - pos) := by omega
      have hnb : min ns (f.nframes - pos) * f.channels * f.sampwidth ≠ 0 := by
        rw [hw]; positivity
      have hev : min ns (f.nframes - pos) * f.channels * f.sampwidth % 2 = 0 := by
        rw [hw]; omega
      have hnf : min ns (f.nframes - pos) * f.channels * f.sampwidth / 2 =
          min ns (f.nframes - pos) * f.channels := by
        rw [hw]; omega
      have hspc : min ns (f.nframes - pos) * f.channels / f.channels =
          min ns (f.nframes - pos) := Nat.mul_div_cancel _ hc
      simp only [playLoop, hnb, if_false, hev, hnf, hspc, hcap i]
      rw [ih (i + 1) (pos + min ns (f.nframes - pos)) _]
      simp only [chunkSizes, hrem, if_false]
      have hsub : f.nframes - (pos + min ns (f.nframes - pos)) =
          f.nframes - pos - min ns (f.nframes - pos) := by omega
      rw [hsub]
      simp

theorem playLoop_failAt (f : WavFile) (s : AudioSink) (ns : Nat) (e : String)
    (hc : 0 < f.channels) (hw : f.sampwidth = 2) (hns : 0 < ns) :
    ∀ k i pos fuel acc, (∀ j, j < k → s.captureErr (i + j) = none) →
    s.captureErr (i + k) = some e → pos + k * ns < f.nframes → k < fuel →
    (playLoop f s ns i pos fuel acc).2 = some e ∧
    (playLoop f s ns i pos fuel acc).1.length = acc.length + k + 1 := by
  intro k
  induction k with
  | zero =>
    intro i pos fuel acc hpre hfail hpos hfuel
    cases fuel with
    | zero => omega
    | succ fuel =>
      have hfr : 0 < min ns (f.nframes - pos) := by omega
      have hnb : min ns (f.nframes - pos) * f.channels * f.sampwidth ≠ 0 := by
        rw [hw]; positivity
      have hev : min ns (f.nframes - pos) * f.channels * f.sampwidth % 2 = 0 := by
        rw [hw]; omega
      have hnf : min ns (f.nframes - pos) * f.channels * f.sampwidth / 2 =
          min ns (f.nframes - pos) * f.channels := by
        rw [hw]; omega
      have hspc : min ns (f.nframes - pos) * f.channels / f.channels =
          min ns (f.nframes - pos) := Nat.mul_div_cancel _ hc
      have hcap : s.captureErr i = some e := by
        have h0 := hfail; rwa [Nat.add_zero] at h0
      simp only [playLoop, hnb, if_false, hev, hnf, hspc, hcap]
      simp
  | succ k ih =>
    intro i pos fuel acc hpre hfail hpos hfuel
    cases fuel with
    | zero => omega
    | succ fuel =>
      have hkn : ns + k * ns = (k + 1) * ns := by ring
      have hmin : min ns (f.nframes - pos) = ns := by omega
      have hnb : ns * f.channels * 2 ≠ 0 := by positivity
      have hev : ns * f.channels * 2 % 2 = 0 := by omega
      have hnf : ns * f.channels * 2 / 2 = ns * f.channels := by omega
      have hspc : ns * f.channels / f.channels = ns := Nat.mul_div_cancel _ hc
      have hcap0 : s.captureErr i = none := by
        have h0 := hpre 0 (Nat.succ_pos k); rwa [Nat.add_zero] at h0
      have hstep : playLoop f s ns i pos (fuel + 1) acc =
          playLoop f s ns (i + 1) (pos + ns) fuel (ns :: acc) := by
        simp only [playLoop, hw, hmin, hnb, if_false, hev, hnf, hspc, hcap0]
        simp
      rw [hstep]
      have hres := ih (i + 1) (pos + ns) fuel (ns :: acc)
        (by
          intro j hj
          have h2 : i + 1 + j = i + (j + 1) := by omega
          rw [h2]
          exact hpre (j + 1) (by omega))
        (by
          have h2 : i + 1 + k = i + (k + 1) := by omega
          rw [h2]; exact hfail)
        (by omega)
        (by omega)
      refine ⟨hres.1, ?_⟩
      rw [hres.2]
      simp
      omega

theorem playLoop_err_cases (f : WavFile) (s : AudioSink) (ns : Nat)
    (hcap : ∀ j, s.captureErr j = none) :
    ∀ fuel i pos acc, (playLoop f s ns i pos fuel acc).2 = none ∨
      (playLoop f s ns i pos fuel acc).2 =
        some "buffer size must be a multiple of element size" ∨
      (playLoop f s ns i pos fuel acc).2 = some "could not broadcast input array" := by
  intro fuel
  induction fuel with
  | zero => intro i pos acc; left; simp [playLoop]
  | succ fuel ih =>
    intro i pos acc
    simp only [playLoop, hcap]
    split
    · left; rfl
    · split
      · right; left; rfl
      · split
        · right; right; rfl
        · exact ih (i + 1) _ _

theorem ceilDiv_mul_ge (n ns : Nat) (h : 0 < ns) : n ≤ ((n + ns - 1) / ns) * ns := by
  rcases Nat.eq_zero_or_pos n with hn | hn
  · simp [hn]
  · have hd := Nat.div_add_mod (n + ns - 1) ns
    have hm : (n + ns - 1) % ns < ns := Nat.mod_lt _ h
    have hcomm : ((n + ns - 1) / ns) * ns = ns * ((n + ns - 1) / ns) := Nat.mul_comm _ _
    omega

theorem lt_ceilDiv (n ns k : Nat) (h : 0 < ns) (hk : k * ns < n) :
    k < (n + ns - 1) / ns := by
  have hge := ceilDiv_mul_ge n ns h
  have : k * ns < ((n + ns - 1) / ns) * ns := lt_of_lt_of_le hk hge
  exact lt_of_mul_lt_mul_right this (Nat.zero_le ns)

theorem play_audio_file_noFail (f : WavFile) (s : AudioSink)
    (hc : 0 < f.channels) (hr : 0 < f.sampleRate) (hw : f.sampwidth = 2)
    (hcap : ∀ j, s.captureErr j = none) :
    play_audio_file f s =
      { batches := chunkSizes f.sampleRate ((f.nframes + f.sampleRate - 1) / f.sampleRate) f.nframes,
        playoutCalled := true, closeCalled := true,
        logged := (match s.playoutErr with
          | some pe => ["Error waiting for playout: " ++ pe]
          | none => []) ++ (match s.closeErr with
          | some ce => ["Error closing source: " ++ ce]
          | none => []),
        err := none } := by
  simp only [play_audio_file, mul_one]
  rw [if_neg (by omega : ¬ f.sampleRate = 0)]
  rw [playLoop_noFail f s f.sampleRate hc hw hr hcap]
  simp

/-- A sink on which every operation succeeds. -/
def sinkOk : AudioSink := ⟨fun _ => none, none, none⟩

/-- A sink whose `capture_frame` raises on the second call (iteration index 1). -/
def sinkBoom : AudioSink := ⟨fun i => if i = 1 then some "boom" else none, none, none⟩

/-- C1, counterexample. -/
theorem C1_counterexample :
    (play_audio_file ⟨1, 2, 6, 2⟩ sinkBoom).closeCalled = false ∧
    (play_audio_file ⟨1, 2, 6, 2⟩ sinkBoom).playoutCalled = false ∧
    (play_audio_file ⟨1, 2, 6, 2⟩ sinkBoom).err = some "boom" ∧
    (play_audio_file ⟨1, 2, 6, 2⟩ sinkBoom).batches = [2, 2] := by decide

/-- C1, amended. -/
theorem C1_abort_no_close (f : WavFile) (s : AudioSink) (k : Nat) (e : String)
    (hc : 0 < f.channels) (hw : f.sampwidth = 2) (hr : 0 < f.sampleRate)
    (hpre : ∀ j, j < k → s.captureErr j = none) (hfail : s.captureErr k = some e)
    (hk : k * f.sampleRate < f.nframes) :
    (play_audio_file f s).err = some e ∧
    (play_audio_file f s).closeCalled = false ∧
    (play_audio_file f s).playoutCalled = false ∧
    (play_audio_file f s).batches.length = k + 1 := by
  have hiters := lt_ceilDiv f.nframes f.sampleRate k hr hk
  have hres := playLoop_failAt f s f.sampleRate e hc hw hr k 0 0
      ((f.nframes + f.sampleRate - 1) / f.sampleRate) []
      (by intro j hj; simpa using hpre j hj)
      (by simpa using hfail) (by simpa using hk) hiters
  rcases hpl : playLoop f s f.sampleRate 0 0 ((f.nframes + f.sampleRate - 1) / f.sampleRate) [] with ⟨bs, oe⟩
  rw [hpl] at hres
  rcases hres with ⟨h2, hlen⟩
  simp only at h2 hlen
  subst h2
  simp only [play_audio_file, mul_one]
  rw [if_neg (by omega : ¬ f.sampleRate = 0), hpl]
  refine ⟨rfl, rfl, rfl, ?_⟩
  simpa using hlen

theorem C1_witness :
    (play_audio_file ⟨1, 2, 6, 2⟩ sinkBoom).err = some "boom" ∧
    (play_audio_file ⟨1, 2, 6, 2⟩ sinkBoom).closeCalled = false :=
  ⟨(C1_abort_no_close ⟨1, 2, 6, 2⟩ sinkBoom 1 "boom" (by decide) rfl (by decide)
      (fun j hj => by
        have hj0 : j = 0 := by omega
        subst hj0; rfl)
      rfl (by decide)).1,
   (C1_abort_no_close ⟨1, 2, 6, 2⟩ sinkBoom 1 "boom" (by decide) rfl (by decide)
      (fun j hj => by
        have hj0 : j = 0 := by omega
        subst hj0; rfl)
      rfl (by decide)).2.1⟩

/-- C2, counterexample. -/
theorem C2_counterexample :
    (play_audio_file ⟨1, 4, 8, 1⟩ sinkOk).batches = [2, 2] ∧
    (play_audio_file ⟨1, 4, 8, 1⟩ sinkOk).err = none := by decide

/-- C2, amended. -/
theorem C2_no_bitdepth_check (f : WavFile) (s : AudioSink)
    (hcap : ∀ j, s.captureErr j = none) :
    (play_audio_file f s).err ≠ some "UnsupportedFormatError" ∧
    (play_audio_file ⟨1, 4, 8, 1⟩ s).batches = [2, 2] := by
  constructor
  · by_cases hns : f.sampleRate * 1 = 0
    · simp only [play_audio_file, hns, if_pos]
      decide
    · have hcases := playLoop_err_cases f s (f.sampleRate * 1) hcap
        ((f.nframes + f.sampleRate * 1 - 1) / (f.sampleRate * 1)) 0 0 []
      rcases hpl : playLoop f s (f.sampleRate * 1) 0 0
          ((f.nframes + f.sampleRate * 1 - 1) / (f.sampleRate * 1)) [] with ⟨bs, oe⟩
      rw [hpl] at hcases
      simp only [play_audio_file, if_neg hns, hpl]
      rcases hcases with h | h | h <;> simp only at h <;> subst h <;> simp
  · simp [play_audio_file, playLoop, hcap]

/-- C2 witness. -/
theorem C2_witness :
    (play_audio_file ⟨1, 4, 8, 1⟩ sinkOk).err ≠ some "UnsupportedFormatError" :=
  (C2_no_bitdepth_check ⟨1, 4, 8, 1⟩ sinkOk (fun _ => rfl)).1

/-- C3. -/
theorem C3_sum_of_batches (f : WavFile) (s : AudioSink)
    (hc : 0 < f.channels) (hr : 0 < f.sampleRate) (hw : f.sampwidth = 2)
    (hcap : ∀ j, s.captureErr j = none) :
    ((play_audio_file f s).batches).sum = f.nframes := by
  rw [play_audio_file_noFail f s hc hr hw hcap]
  have hsum := chunkSizes_sum f.sampleRate ((f.nframes + f.sampleRate - 1) / f.sampleRate) f.nframes
  have hge := ceilDiv_mul_ge f.nframes f.sampleRate hr
  simp only [hsum]
  omega

theorem C3_witness :
    ((play_audio_file ⟨2, 3, 7, 2⟩ sinkOk).batches).sum = 7 :=
  C3_sum_of_batches ⟨2, 3, 7, 2⟩ sinkOk (by decide) (by decide) rfl (fun _ => rfl)

/-- A file with no frames left yields no further chunks. -/
theorem chunkSizes_zero_rem (ns fuel : Nat) : chunkSizes ns fuel 0 = [] := by
  cases fuel <;> simp [chunkSizes]

/-- Every read except possibly the last is empty of remainder, so the chunk
list ends with the leftover frame count: with `rem` frames and enough fuel,
the last read yields `rem mod ns` frames when the remainder is non-zero, and
a full `ns` otherwise. -/
theorem chunkSizes_getLast (ns : Nat) (_hns : 0 < ns) :
    ∀ fuel n, 0 < n → n ≤ fuel * ns →
    (chunkSizes ns fuel n).getLast? =
      some (if n % ns = 0 then ns else n % ns) := by
  intro fuel
  induction fuel with
  | zero => intro n hn hle; omega
  | succ fuel ih =>
    intro n hn hle
    simp only [chunkSizes]
    rw [if_neg (by omega)]
    rcases Nat.le_total n ns with hcase | hcase
    · have hmin : min ns n = n := by omega
      rw [hmin, Nat.sub_self, chunkSizes_zero_rem]
      by_cases hmod : n % ns = 0
      · have hdvd : ns ∣ n := Nat.dvd_of_mod_eq_zero hmod
        have hEq : n = ns := Nat.le_antisymm hcase (Nat.le_of_dvd hn hdvd)
        simp [hmod, hEq]
      · have hlt : n < ns := by
          rcases Nat.lt_or_ge n ns with h | h
          · exact h
          · have hEq : n = ns := by omega
            rw [hEq, Nat.mod_self] at hmod
            exact absurd rfl hmod
        rw [Nat.mod_eq_of_lt hlt, if_neg (by omega : ¬ n = 0)]
        simp
    · have hmin : min ns n = ns := by omega
      rw [hmin]
      rcases Nat.eq_zero_or_pos (n - ns) with hz | hpos
      · rw [hz, chunkSizes_zero_rem]
        have hEq : n = ns := by omega
        simp [hEq, Nat.mod_self]
      · have hle2 : n - ns ≤ fuel * ns := by
          have hmul : (fuel + 1) * ns = fuel * ns + ns := by ring
          omega
        have hih := ih (n - ns) hpos hle2
        have hmm : (n - ns) % ns = n % ns := by
          conv_rhs => rw [show n = (n - ns) + ns by omega]
          rw [Nat.add_mod_right]
        rcases hrest : chunkSizes ns fuel (n - ns) with _ | ⟨y, ys⟩
        · rw [hrest] at hih; simp at hih
        · rw [hrest] at hih
          rw [List.getLast?_cons_cons, hih, hmm]

/-- C4. -/
theorem C4_batch_shape (f : WavFile) (s : AudioSink)
    (hc : 0 < f.channels) (hr : 0 < f.sampleRate) (hw : f.sampwidth = 2)
    (hcap : ∀ j, s.captureErr j = none) :
    (∀ b ∈ (play_audio_file f s).batches.dropLast, b = f.sampleRate * 1) ∧
    (∀ b ∈ (play_audio_file f s).batches, 0 < b ∧ b ≤ f.sampleRate * 1) ∧
    ((play_audio_file f s).batches).sum = f.nframes ∧
    (f.nframes % (f.sampleRate * 1) ≠ 0 →
      (play_audio_file f s).batches.getLast? = some (f.nframes % (f.sampleRate * 1))) ∧
    (play_audio_file f s).err = none := by
  rw [play_audio_file_noFail f s hc hr hw hcap]
  simp only [mul_one]
  have hge := ceilDiv_mul_ge f.nframes f.sampleRate hr
  refine ⟨?_, ?_, ?_, ?_, trivial⟩
  · intro b hb
    exact chunkSizes_dropLast f.sampleRate _ _ b hb
  · intro b hb
    exact chunkSizes_mem f.sampleRate hr _ _ b hb
  · have hsum := chunkSizes_sum f.sampleRate
      ((f.nframes + f.sampleRate - 1) / f.sampleRate) f.nframes
    simp only [hsum]
    omega
  · intro hmod
    have hn : 0 < f.nframes := by
      rcases Nat.eq_zero_or_pos f.nframes with h0 | h0
      · rw [h0, Nat.zero_mod] at hmod
        exact absurd rfl hmod
      · exact h0
    rw [chunkSizes_getLast f.sampleRate hr _ f.nframes hn hge, if_neg hmod]

theorem C4_witness :
    ((play_audio_file ⟨1, 2, 5, 2⟩ sinkOk).batches).sum = 5 ∧
    (play_audio_file ⟨1, 2, 5, 2⟩ sinkOk).batches.getLast? = some 1 ∧
    (play_audio_file ⟨1, 2, 5, 2⟩ sinkOk).err = none :=
  ⟨(C4_batch_shape ⟨1, 2, 5, 2⟩ sinkOk (by decide) (by decide) rfl (fun _ => rfl)).2.2.1,
   (C4_batch_shape ⟨1, 2, 5, 2⟩ sinkOk (by decide) (by decide) rfl
      (fun _ => rfl)).2.2.2.1 (by decide),
   (C4_batch_shape ⟨1, 2, 5, 2⟩ sinkOk (by decide) (by decide) rfl (fun _ => rfl)).2.2.2.2⟩

/-- A sink that succeeds on capture but fails on playout wait and on close. -/
def sinkLate : AudioSink := ⟨fun _ => none, some "pe", some "ce"⟩

/-- C6. -/
theorem C6_drain_nonfatal (f : WavFile) (s : AudioSink)
    (hc : 0 < f.channels) (hr : 0 < f.sampleRate) (hw : f.sampwidth = 2)
    (hcap : ∀ j, s.captureErr j = none) :
    (play_audio_file f s).err = none ∧
    (play_audio_file f s).playoutCalled = true ∧
    (play_audio_file f s).closeCalled = true ∧
    (∀ pe, s.playoutErr = some pe →
      ("Error waiting for playout: " ++ pe) ∈ (play_audio_file f s).logged) ∧
    (∀ ce, s.closeErr = some ce →
      ("Error closing source: " ++ ce) ∈ (play_audio_file f s).logged) := by
  rw [play_audio_file_noFail f s hc hr hw hcap]
  refine ⟨rfl, rfl, rfl, ?_, ?_⟩
  · intro pe hpe; simp [hpe]
  · intro ce hce; simp [hce]

theorem C6_witness :
    ("Error waiting for playout: " ++ "pe") ∈ (play_audio_file ⟨1, 2, 4, 2⟩ sinkLate).logged ∧
    ("Error closing source: " ++ "ce") ∈ (play_audio_file ⟨1, 2, 4, 2⟩ sinkLate).logged :=
  ⟨(C6_drain_nonfatal ⟨1, 2, 4, 2⟩ sinkLate (by decide) (by decide) rfl
      (fun _ => rfl)).2.2.2.1 "pe" rfl,
   (C6_drain_nonfatal ⟨1, 2, 4, 2⟩ sinkLate (by decide) (by decide) rfl
      (fun _ => rfl)).2.2.2.2 "ce" rfl⟩

/-- C7. -/
theorem C7_zero_frames (c r sw : Nat) (s : AudioSink) (_hc : 0 < c) (hr : 0 < r) :
    (play_audio_file ⟨c, r, 0, sw⟩ s).batches = [] ∧
    (play_audio_file ⟨c, r, 0, sw⟩ s).playoutCalled = true ∧
    (play_audio_file ⟨c, r, 0, sw⟩ s).closeCalled = true := by
  have h0 : (0 + r * 1 - 1) / (r * 1) = 0 := Nat.div_eq_of_lt (by omega)
  simp only [play_audio_file]
  rw [if_neg (by omega : ¬ r * 1 = 0)]
  simp only [h0]
  simp [playLoop]

theorem C7_witness :
    (play_audio_file ⟨2, 5, 0, 2⟩ sinkLate).batches = [] ∧
    (play_audio_file ⟨2, 5, 0, 2⟩ sinkLate).playoutCalled = true ∧
    (play_audio_file ⟨2, 5, 0, 2⟩ sinkLate).closeCalled = true :=
  C7_zero_frames 2 5 2 sinkLate (by decide) (by decide)

/-- C5, counterexample. -/
theorem C5_counterexample :
    Message.construct "" none "agent" none none ⟨"id-0", 0⟩ =
      { event := "", data := none, source := "agent", id := "id-0", timestamp := 0 } := rfl

/-- C5, amended. -/
theorem C5_no_validation (event : String) (data : Option (List (String × JValue)))
    (source : String) (id0 : Option String) (ts0 : Option Int) (env : MsgEnv) :
    (Message.construct event data source id0 ts0 env).event = event ∧
    (Message.construct event data source id0 ts0 env).source = source :=
  ⟨rfl, rfl⟩

/-- The message of the C8 scenario, constructed under a representative
environment (a fixed uuid string and clock value). -/
def msgHangup : Message :=
  Message.construct "call.hangup" (some [("reason", .str "timeout")]) "agent" none none
    ⟨"f47ac10b-58cc-4372-a567-0e02b2c3d479", 1700000000⟩

/-- C8. -/
theorem C8_to_json_shape :
    parseJson 100 msgHangup.to_json.data = some (.obj msgHangup.to_dict, []) ∧
    List.lookup "event" msgHangup.to_dict = some (.str "call.hangup") ∧
    List.lookup "data" msgHangup.to_dict = some (.obj [("reason", .str "timeout")]) ∧
    List.lookup "source" msgHangup.to_dict = some (.str "agent") ∧
    (∀ m : Message, m.to_dict.map Prod.fst = ["event", "data", "source", "id", "timestamp"]) ∧
    (∀ m : Message, m.data = none → List.lookup "data" m.to_dict = some JValue.null) := by
  refine ⟨by rfl, by rfl, by rfl, by rfl, fun m => rfl, fun m h => ?_⟩
  simp [Message.to_dict, h, List.lookup]

theorem C8_witness :
    List.lookup "data" (Message.construct "x" none "agent" none none ⟨"i", 0⟩).to_dict =
      some JValue.null :=
  C8_to_json_shape.2.2.2.2.2 (Message.construct "x" none "agent" none none ⟨"i", 0⟩) rfl

/-- C9. -/
theorem C9_id_timestamp_once (e : String) (d : Option (List (String × JValue)))
    (src i : String) (t : Int) (env env2 : MsgEnv) :
    Message.construct e d src (some i) (some t) env =
      Message.construct e d src (some i) (some t) env2 ∧
    (Message.construct e d src (some i) (some t) env).id = i ∧
    (Message.construct e d src (some i) (some t) env).timestamp = t ∧
    (Message.construct e d src none none env).id = env.freshId ∧
    (Message.construct e d src none none env).timestamp = env.now ∧
    (Message.construct e d src (some i) (some t) env).to_json =
      (Message.construct e d src (some i) (some t) env2).to_json ∧
    List.lookup "id" (Message.construct e d src (some i) (some t) env).to_dict =
      some (.str i) ∧
    List.lookup "timestamp" (Message.construct e d src (some i) (some t) env).to_dict =
      some (.num t) :=
  ⟨rfl, rfl, rfl, rfl, rfl, rfl, rfl, rfl⟩

/-- The `ValueError` message of `create_participant_token`. -/
def credsError : String :=
  "LiveKit API key and secret must be provided via arguments or environment variables LIVEKIT_API_KEY/LIVEKIT_API_SECRET"

/-- C10. -/
theorem C10_empty_credentials (room identity k : String)
    (key sec : Option String) (a a2 b b2 : Option String) :
    create_participant_token room identity (some "") sec ⟨a, b⟩ = .error credsError ∧
    create_participant_token room identity key (some "") ⟨a, b⟩ = .error credsError ∧
    create_participant_token room identity (some k) sec ⟨a, b⟩ =
      create_participant_token room identity (some k) sec ⟨a2, b⟩ ∧
    create_participant_token room identity key (some k) ⟨a, b⟩ =
      create_participant_token room identity key (some k) ⟨a, b2⟩ ∧
    create_participant_token room identity none sec ⟨some "", b⟩ = .error credsError := by
  refine ⟨?_, ?_, rfl, rfl, ?_⟩
  · simp [create_participant_token, falsyOptStr, credsError]
  · simp [create_participant_token, falsyOptStr, credsError]
  · simp [create_participant_token, falsyOptStr, credsError]
